import Mathlib

/-!
Verification development for the conversation synchronization frontend
(src/AIChat.jsx, src/ChatHistory.jsx).  The JavaScript source is embedded
shallowly: pure functions become Lean functions, the Firestore document
store becomes an explicit state type acted on by deletion operations, and
fallible asynchronous steps become functions parameterized by the outcome
of each external call.  All definitions are executable.
-/

namespace Spec2Proof

/-! ## String utilities (JS semantics)

`jsTrim` models `String.prototype.trim`, `listHas` models
`String.prototype.includes`, `lowerStr` models `toLowerCase` (ASCII range,
which is all the source compares). -/

def jsWhitespace (c : Char) : Bool :=
  c = ' ' || c = '\t' || c = '\n' || c = '\r' || c = '\x0b' || c = '\x0c' || c = '\xa0'

def trimList (l : List Char) : List Char :=
  ((l.dropWhile jsWhitespace).reverse.dropWhile jsWhitespace).reverse

def jsTrim (s : String) : String :=
  String.mk (trimList s.data)

def lowerStr (s : String) : String :=
  String.mk (s.data.map Char.toLower)

def listLead : List Char → List Char → Bool
  | [], _ => true
  | _ :: _, [] => false
  | a :: as, b :: bs => a = b && listLead as bs

def listHas (needle : List Char) : List Char → Bool
  | [] => listLead needle []
  | c :: rest => listLead needle (c :: rest) || listHas needle rest

/-! ## Directive Parser (AIChat.jsx lines 388-406 and generateImageURL lines 17-20)

The source scans `aiText` with the JS regular expression
`\x5bIMAGE_REQUEST:\s*(.+?)\x5d` (non-global, so only the first match is
used), trims the captured description, builds a Pollinations URL with
`encodeURIComponent`, removes the matched substring, trims, and falls back
to a fixed caption when the remaining text is empty.  The matcher below
reproduces the regex semantics: leftmost match, greedy `\s*` with
backtracking, lazy one-or-more group of non-line-terminator characters,
closed by a literal bracket. -/

def dotOk (c : Char) : Bool :=
  c ≠ '\n' && c ≠ '\r' && c.toNat ≠ 0x2028 && c.toNat ≠ 0x2029

/-- Lazy continuation: consume the minimal nonempty run of `.`-matching
characters ending just before the first closing bracket. -/
def lazyTail : List Char → Option (List Char × List Char)
  | [] => none
  | c :: rest =>
    if c = ']' then some ([], rest)
    else if dotOk c then
      match lazyTail rest with
      | some (g, r) => some (c :: g, r)
      | none => none
    else none

/-- Lazy group `(.+?)\x5d`: at least one character, then the matcher above. -/
def lazyGroup : List Char → Option (List Char × List Char)
  | [] => none
  | c :: rest =>
    if dotOk c then
      match lazyTail rest with
      | some (g, r) => some (c :: g, r)
      | none => none
    else none

/-- Greedy `\s*` with backtracking: try consuming `n` whitespace characters
first, then fewer, until the rest of the pattern matches. -/
def wsTry : Nat → List Char → Option (List Char × List Char)
  | 0, r => lazyGroup r
  | n + 1, r =>
    match lazyGroup (r.drop (n + 1)) with
    | some x => some x
    | none => wsTry n r

def matchTail (r : List Char) : Option (List Char × List Char) :=
  wsTry ((r.takeWhile jsWhitespace).length) r

def headerChars : List Char := "[IMAGE_REQUEST:".data

/-- Leftmost match of the directive pattern.  Returns the text before the
match, the captured group, and the text after the match. -/
def findDirective : List Char → Option (List Char × List Char × List Char)
  | [] => none
  | c :: rest =>
    if listLead headerChars (c :: rest) then
      match matchTail ((c :: rest).drop headerChars.length) with
      | some (g, suf) => some ([], g, suf)
      | none =>
        match findDirective rest with
        | some (p, g, suf) => some (c :: p, g, suf)
        | none => none
    else
      match findDirective rest with
      | some (p, g, suf) => some (c :: p, g, suf)
      | none => none

/-! `encodeURIComponent`: unreserved characters pass through, all others are
percent-encoded as their UTF-8 bytes with uppercase hex digits. -/

def uriUnreserved (c : Char) : Bool :=
  ('A' ≤ c && c ≤ 'Z') || ('a' ≤ c && c ≤ 'z') || ('0' ≤ c && c ≤ '9') ||
  c = '-' || c = '_' || c = '.' || c = '!' || c = '~' || c = '*' || c = '\x27' ||
  c = '(' || c = ')'

def utf8Bytes (n : Nat) : List Nat :=
  if n < 0x80 then [n]
  else if n < 0x800 then [0xc0 + n / 64, 0x80 + n % 64]
  else if n < 0x10000 then [0xe0 + n / 4096, 0x80 + (n / 64) % 64, 0x80 + n % 64]
  else [0xf0 + n / 262144, 0x80 + (n / 4096) % 64, 0x80 + (n / 64) % 64, 0x80 + n % 64]

def hexDigit (n : Nat) : Char :=
  if n < 10 then Char.ofNat (48 + n) else Char.ofNat (55 + n)

def encChar (c : Char) : List Char :=
  if uriUnreserved c then [c]
  else ((utf8Bytes c.toNat).map (fun b => ['%', hexDigit (b / 16), hexDigit (b % 16)])).flatten

def encodeURIComponent (s : String) : String :=
  String.mk (s.data.map encChar).flatten

/-- AIChat.jsx lines 17-20: the fixed-template Pollinations image URL. -/
def generateImageURL (prompt : String) : String :=
  "https://image.pollinations.ai/prompt/" ++ encodeURIComponent prompt ++
    "?width=512&height=512&nologo=true"

/-- AIChat.jsx lines 388-406: extract the image directive from the model
text.  Returns the cleaned text and the generated image URL, if any. -/
def parseDirective (aiText : String) : String × Option String :=
  match findDirective aiText.data with
  | none => (aiText, none)
  | some (p, g, suf) =>
    let imagePrompt := String.mk (trimList g)
    let url := generateImageURL imagePrompt
    let cleaned := String.mk (trimList (p ++ suf))
    let finalText :=
      if cleaned = "" then "Here\x27s the image you requested: \"" ++ imagePrompt ++ "\""
      else cleaned
    (finalText, some url)

/-! ## Backoff HTTP Client (AIChat.jsx lines 220-246, fetchWithRetries)

Each attempt produces either an HTTP response with a status or a
network-level failure (a thrown `fetch` error).  The source code:

  for (i = 0; i < retries; i++) {
    try {
      response = await fetch(url, options)
      if (response.ok) return response
      if (response.status < 500) throw ClientError(status)
      throw ServerError(status)
    } catch (error) {
      if (i < retries - 1) { delay 2^i * 1000 ms } else throw error
    }
  }

Note that the client-error throw sits inside the `try`, so the `catch`
retries it like any other error.  `fetchGo` is structured on the number
of remaining loop iterations (`remaining + 1` iterations left means the
current one is the last iff `remaining = 0`, i.e. `i = retries - 1`). -/

inductive FetchOutcome where
  | resp (status : Nat)
  | netErr
deriving DecidableEq, Repr

inductive FetchError where
  | clientError (status : Nat)
  | serverError (status : Nat)
  | networkError
deriving DecidableEq, Repr

/-- `Response.ok` per the fetch specification: status in 200..299. -/
def respOk (s : Nat) : Bool := decide (200 ≤ s) && decide (s < 300)

def attemptError : FetchOutcome → Option FetchError
  | .resp s => if respOk s then none else if s < 500 then some (.clientError s) else some (.serverError s)
  | .netErr => some .networkError

inductive RetryResult where
  | ok (response : Option FetchOutcome)
  | err (e : FetchError)
deriving DecidableEq, Repr

structure RetryTrace where
  result : RetryResult
  attempts : Nat
  delays : List Nat
deriving DecidableEq, Repr

def fetchGo (responses : Nat → FetchOutcome) (i : Nat) : Nat → RetryTrace
  | 0 => ⟨.ok none, i, []⟩
  | remaining + 1 =>
    match attemptError (responses i) with
    | none => ⟨.ok (some (responses i)), i + 1, []⟩
    | some e =>
      if remaining = 0 then ⟨.err e, i + 1, []⟩
      else
        let t := fetchGo responses (i + 1) remaining
        ⟨t.result, t.attempts, 2 ^ i * 1000 :: t.delays⟩

def fetchWithRetries (responses : Nat → FetchOutcome) (retries : Nat) : RetryTrace :=
  fetchGo responses 0 retries

def isTransient : FetchOutcome → Bool
  | .resp s => decide (500 ≤ s)
  | .netErr => true

def transientError : FetchOutcome → FetchError
  | .resp s => .serverError s
  | .netErr => .networkError

/-! ## Cascading Deletion Controller (ChatHistory.jsx lines 61-89 and 91-170)

The Firestore state relevant to deletion is embedded as a `Store`: a list
of message documents (each carrying its parent `chatId`) and a list of
chat-record ids.  Each `batch.commit()` / `deleteDoc` in the source
becomes one atomic `Op` applied to the store.  The page-deletion loop
(query with `limit 200`, delete the page, stop on an empty page or a page
shorter than 200) is `drainLoopF`; it is structured on a fuel argument
that `drainLoop` instantiates with `msgs.length + 1`, which is proved
sufficient below (each nonempty page strictly shrinks the chat's log). -/

structure MsgDoc where
  id : Nat
  chatId : Nat
deriving DecidableEq, Repr

inductive Op where
  | commitMsgDelete (chatId : Nat) (ids : List Nat)
  | commitChatDelete (chatIds : List Nat)
  | deleteChat (chatId : Nat)
deriving DecidableEq, Repr

structure Store where
  msgs : List MsgDoc
  chats : List Nat
deriving DecidableEq, Repr

/-- Messages of one conversation, in store order (the `where chatId == cid`
query). -/
def chatMsgs (msgs : List MsgDoc) (cid : Nat) : List MsgDoc :=
  msgs.filter (fun m => m.chatId = cid)

/-- The page returned by `getDocs(query(..., limit(200)))`. -/
def pageOf (msgs : List MsgDoc) (cid : Nat) : List MsgDoc :=
  (chatMsgs msgs cid).take 200

def pageIds (msgs : List MsgDoc) (cid : Nat) : List Nat :=
  (pageOf msgs cid).map MsgDoc.id

/-- Delete the documents with the given ids from the message collection. -/
def delIds (msgs : List MsgDoc) (ids : List Nat) : List MsgDoc :=
  msgs.filter (fun m => !(List.elem m.id ids))

def afterPage (msgs : List MsgDoc) (cid : Nat) : List MsgDoc :=
  delIds msgs (pageIds msgs cid)

def Op.isMsgDel : Op → Bool
  | .commitMsgDelete _ _ => true
  | _ => false

def applyOp (s : Store) : Op → Store
  | .commitMsgDelete _ ids => ⟨delIds s.msgs ids, s.chats⟩
  | .commitChatDelete cids => ⟨s.msgs, s.chats.filter (fun c => !(List.elem c cids))⟩
  | .deleteChat cid => ⟨s.msgs, s.chats.filter (fun c => !(c = cid))⟩

def run (s : Store) (ops : List Op) : Store :=
  ops.foldl applyOp s

/-- The `while (true)` page-deletion loop shared by `handleDeleteChat` and
`handleClearAllChats`: re-query a page of at most 200 messages; stop on an
empty page; otherwise commit a batch deleting the page and stop if the
page was shorter than 200. -/
def drainLoopF (cid : Nat) : Nat → List MsgDoc → List Op × List MsgDoc
  | 0, msgs => ([], msgs)
  | fuel + 1, msgs =>
    if pageOf msgs cid = [] then ([], msgs)
    else if (pageOf msgs cid).length < 200 then
      ([Op.commitMsgDelete cid (pageIds msgs cid)], afterPage msgs cid)
    else
      match drainLoopF cid fuel (afterPage msgs cid) with
      | (ops, rest) => (Op.commitMsgDelete cid (pageIds msgs cid) :: ops, rest)

def drainLoop (cid : Nat) (msgs : List MsgDoc) : List Op × List MsgDoc :=
  drainLoopF cid (msgs.length + 1) msgs

/-- ChatHistory.jsx lines 61-89: drain the conversation's message log in
pages, then delete the chat record with `deleteDoc`. -/
def handleDeleteChat (cid : Nat) (msgs : List MsgDoc) : List Op :=
  (drainLoop cid msgs).1 ++ [Op.deleteChat cid]

/-- Phase 1 of `handleClearAllChats` (lines 115-140): for each id of the
snapshot taken at the start, run the page-deletion loop to exhaustion. -/
def drainAll (cids : List Nat) (msgs : List MsgDoc) : List Op × List MsgDoc :=
  match cids with
  | [] => ([], msgs)
  | c :: rest =>
    match drainLoop c msgs with
    | (ops1, m1) =>
      match drainAll rest m1 with
      | (ops2, m2) => (ops1 ++ ops2, m2)

/-- Phase 2 of `handleClearAllChats` (lines 144-156): slice the snapshot of
chat ids into groups of at most 500 (`for i += 500; slice(i, i + 500)`). -/
def chunk500F : Nat → List Nat → List (List Nat)
  | 0, _ => []
  | fuel + 1, l =>
    if l = [] then []
    else l.take 500 :: chunk500F fuel (l.drop 500)

def chunk500 (l : List Nat) : List (List Nat) :=
  chunk500F l.length l

/-- ChatHistory.jsx lines 91-170, `handleClearAllChats` as the sequence of
atomic store operations it commits: first every message page of every
snapshotted chat id, then the chat records in batches of at most 500. -/
def clearAllOps (cids : List Nat) (msgs : List MsgDoc) : List Op :=
  (drainAll cids msgs).1 ++ (chunk500 cids).map Op.commitChatDelete

def opDeletedCount : Op → Nat
  | .commitMsgDelete _ ids => ids.length
  | .commitChatDelete cids => cids.length
  | .deleteChat _ => 1

/-- Page-size sequence of the deletion loop at the level of counts
(200, 200, ..., remainder). -/
def pagesAuxF : Nat → Nat → List Nat
  | 0, _ => []
  | fuel + 1, n =>
    if n = 0 then []
    else if n < 200 then [n]
    else 200 :: pagesAuxF fuel (n - 200)

def pagesList (n : Nat) : List Nat :=
  pagesAuxF n n

/-- A conversation log holding exactly 450 turns (with distinct ids). -/
def msgs450 : List MsgDoc :=
  (List.range 450).map (fun i => ⟨i, 0⟩)

/-! ## Conversation Registry derived view (ChatHistory.jsx lines 197-209)

`filteredChats` filters by case-insensitive substring match on the title
and by category (or "all"); `sortedChats` sorts the filtered list with the
comparator `(a, b) => a.pinned && !b.pinned ? -1 : !a.pinned && b.pinned ?
1 : 0`.  `Array.prototype.sort` is stable (ES2019), and for this
consistent comparator every stable sort yields the same list, so the sort
is embedded as a stable insertion sort. -/

structure Chat where
  id : Nat
  title : String
  category : String
  pinned : Bool
deriving DecidableEq, Repr

def matchesSearch (c : Chat) (q : String) : Bool :=
  listHas (lowerStr q).data (lowerStr c.title).data

def filteredChats (chats : List Chat) (q cat : String) : List Chat :=
  chats.filter (fun c => matchesSearch c q && (cat = "all" || c.category = cat))

def cmpChats (a b : Chat) : Int :=
  if a.pinned && !b.pinned then -1
  else if !a.pinned && b.pinned then 1
  else 0

/-- Stable insertion (element being inserted came earlier in the input than
everything already in the list, so it goes before elements that compare
equal). -/
def insertCmp (x : Chat) : List Chat → List Chat
  | [] => [x]
  | y :: ys => if cmpChats x y ≤ 0 then x :: y :: ys else y :: insertCmp x ys

def sortStable (l : List Chat) : List Chat :=
  l.foldr insertCmp []

def sortedChats (chats : List Chat) (q cat : String) : List Chat :=
  sortStable (filteredChats chats q cat)

/-! ## Synchronization Engine (AIChat.jsx, handleSendMessage lines 253-469)

A `Turn` is one message document; `EngineState` is the conversation's
persisted log plus its registry metadata.  The live subscription view
(lines 161-208) substitutes a synthetic, never-persisted welcome turn when
the log is empty.  `handleSendMessage` is parameterized by the outcome of
each external call: whether the user-turn write succeeds (`uOk`), whether
the step-1 metadata update succeeds (`mOk`), the completion-call outcome
(`api`: an error message, or the optional first-candidate text), whether
the assistant-turn write and its metadata update succeed (`aiW`/`aiM`
carry the thrown message on failure), and whether the error-turn write and
its metadata update succeed (`eW`/`eM`).  The returned `isLoading` is the
engine state after the `finally` block (false = Idle). -/

structure Turn where
  sender : String
  text : String
  isWelcome : Bool
  hasImage : Bool
  isError : Bool
  imageData : Option String
  imageUrl : Option String
deriving DecidableEq, Repr

structure ChatMeta where
  title : String
  lastMessage : String
  lastSender : String
deriving DecidableEq, Repr

structure EngineState where
  persisted : List Turn
  meta : ChatMeta
deriving DecidableEq, Repr

/-- AIChat.jsx lines 185-191: the client-synthesized welcome turn shown
when the subscribed log is empty. -/
def welcomeTurn (name : String) : Turn :=
  { sender := "ai",
    text := "Hello " ++ (if name = "" then "there" else name) ++
      "! I\x27m your AI assistant. Ask me anything!",
    isWelcome := true, hasImage := false, isError := false,
    imageData := none, imageUrl := none }

/-- The `messages` React state produced by the subscription. -/
def liveView (name : String) (persisted : List Turn) : List Turn :=
  if persisted = [] then [welcomeTurn name] else persisted

structure APIMsg where
  role : String
  text : String
deriving DecidableEq, Repr

/-- AIChat.jsx lines 211-217: map sender to role (user stays user,
anything else becomes "model"). -/
def formatHistoryForAPI (msgs : List Turn) : List APIMsg :=
  msgs.map (fun m => ⟨if m.sender = "user" then "user" else "model", m.text⟩)

/-- AIChat.jsx lines 302-304: `trimmedInput.length > 40 ?
substring(0, 40) + ... : trimmedInput or fallback`. -/
def deriveTitle (trimmedInput : String) : String :=
  if 40 < trimmedInput.length then trimmedInput.take 40 ++ "..."
  else if trimmedInput = "" then "Image chat" else trimmedInput

/-- AIChat.jsx lines 299-318: step-1 metadata update.  The title is set
only when the view holds no non-welcome message yet. -/
def updateTitleAndPreview (view : List Turn) (trimmedInput : String) (meta : ChatMeta) : ChatMeta :=
  if view.filter (fun m => !m.isWelcome) = [] then
    { title := deriveTitle trimmedInput,
      lastMessage := if trimmedInput = "" then "[Image]" else trimmedInput,
      lastSender := "user" }
  else
    { meta with
      lastMessage := if trimmedInput = "" then "[Image]" else trimmedInput,
      lastSender := "user" }

/-- AIChat.jsx lines 282-296: the persisted user turn. -/
def mkUserTurn (trimmedInput : String) (img : Option String) : Turn :=
  { sender := "user",
    text := if trimmedInput = "" then "[Image]" else trimmedInput,
    isWelcome := false, hasImage := img.isSome, isError := false,
    imageData := img, imageUrl := none }

def aiFallback : String := "I\x27m sorry, I couldn\x27t generate a response."

/-- AIChat.jsx lines 380-386: first-candidate text, or the fixed apology
for a missing or empty (falsy) text. -/
def extractText (cand : Option String) : String :=
  match cand with
  | some t => if t = "" then aiFallback else t
  | none => aiFallback

/-- AIChat.jsx lines 410-421: the persisted assistant turn. -/
def mkAiTurn (aiText : String) (imgUrl : Option String) : Turn :=
  { sender := "ai", text := aiText,
    isWelcome := false, hasImage := imgUrl.isSome, isError := false,
    imageData := none, imageUrl := imgUrl }

/-- AIChat.jsx lines 448-454: the persisted, flagged error turn. -/
def mkErrorTurn (errMsg : String) : Turn :=
  { sender := "ai",
    text := "I encountered an error: " ++ errMsg ++ ". Please try again or check your connection.",
    isWelcome := false, hasImage := false, isError := true,
    imageData := none, imageUrl := none }

/-- AIChat.jsx lines 440-465: the catch block.  Append the error turn and
set the "Error occurred" preview; a failure of either write is caught by
the inner try/catch, logged and swallowed. -/
def errorFinalize (persisted : List Turn) (meta : ChatMeta) (errMsg : String)
    (eW eM : Bool) : EngineState :=
  if eW then
    if eM then
      ⟨persisted ++ [mkErrorTurn errMsg],
       { meta with lastMessage := "Error occurred", lastSender := "ai" }⟩
    else ⟨persisted ++ [mkErrorTurn errMsg], meta⟩
  else ⟨persisted, meta⟩

inductive Payload where
  | text (contents : List APIMsg)
  | vision (prompt : String) (imageData : String)
deriving DecidableEq, Repr

/-- `selectedImage.split(',')[1]`: the segment between the first and second
comma of the data URL. -/
def base64Part (s : String) : String :=
  String.mk (((s.data.dropWhile (fun c => c ≠ ',')).drop 1).takeWhile (fun c => c ≠ ','))

/-- AIChat.jsx lines 326-367: build the request body.  On the text path the
history is the current view minus image-bearing turns (the synthetic
welcome turn is not excluded) plus the new user text. -/
def buildPayload (name : String) (persisted : List Turn) (trimmedInput : String)
    (img : Option String) : Payload :=
  match img with
  | some d =>
    Payload.vision (if trimmedInput = "" then "What\x27s in this image?" else trimmedInput)
      (base64Part d)
  | none =>
    Payload.text (formatHistoryForAPI
      ((liveView name persisted).filter (fun m => !m.hasImage) ++
        [{ sender := "user", text := trimmedInput, isWelcome := false, hasImage := false,
           isError := false, imageData := none, imageUrl := none }]))

/-- Preview written at step 5: `generatedImageUrl ? aiText + " [Image]" :
aiText`. -/
def previewOf (pr : String × Option String) : String :=
  match pr.2 with
  | some _ => pr.1 ++ " [Image]"
  | none => pr.1

structure SendResult where
  state : EngineState
  apiCalled : Bool
  payload : Option Payload
  isLoading : Bool
deriving DecidableEq, Repr

/-- AIChat.jsx lines 253-469, `handleSendMessage`, assuming a conversation
id exists.  Aborts on empty input, aborts silently when the user-turn
write or the step-1 metadata write fails, routes to the error finalizer on
a completion error or on a failed assistant-turn write, and otherwise
persists the parsed assistant turn and updates the preview. -/
def handleSendMessage (name : String) (st : EngineState) (input : String) (img : Option String)
    (uOk mOk : Bool) (api : Except String (Option String)) (aiW aiM : Option String)
    (eW eM : Bool) : SendResult :=
  if jsTrim input = "" ∧ img = none then ⟨st, false, none, false⟩
  else if uOk = false then ⟨st, false, none, false⟩
  else if mOk = false then
    ⟨⟨st.persisted ++ [mkUserTurn (jsTrim input) img], st.meta⟩, false, none, false⟩
  else
    match api with
    | .error e =>
      ⟨errorFinalize (st.persisted ++ [mkUserTurn (jsTrim input) img])
         (updateTitleAndPreview (liveView name st.persisted) (jsTrim input) st.meta) e eW eM,
       true, some (buildPayload name st.persisted (jsTrim input) img), false⟩
    | .ok cand =>
      match aiW with
      | some em =>
        ⟨errorFinalize (st.persisted ++ [mkUserTurn (jsTrim input) img])
           (updateTitleAndPreview (liveView name st.persisted) (jsTrim input) st.meta) em eW eM,
         true, some (buildPayload name st.persisted (jsTrim input) img), false⟩
      | none =>
        match aiM with
        | some em =>
          ⟨errorFinalize
             (st.persisted ++ [mkUserTurn (jsTrim input) img] ++
               [mkAiTurn (parseDirective (extractText cand)).1 (parseDirective (extractText cand)).2])
             (updateTitleAndPreview (liveView name st.persisted) (jsTrim input) st.meta) em eW eM,
           true, some (buildPayload name st.persisted (jsTrim input) img), false⟩
        | none =>
          ⟨⟨st.persisted ++ [mkUserTurn (jsTrim input) img] ++
              [mkAiTurn (parseDirective (extractText cand)).1 (parseDirective (extractText cand)).2],
            { updateTitleAndPreview (liveView name st.persisted) (jsTrim input) st.meta with
              lastMessage := previewOf (parseDirective (extractText cand)),
              lastSender := "ai" }⟩,
           true, some (buildPayload name st.persisted (jsTrim input) img), false⟩

/-! ## Supporting lemmas -/

theorem filter_length_lt {α : Type} (p : α → Bool) (l : List α) (x : α)
    (hx : x ∈ l) (hpx : p x = false) : (l.filter p).length < l.length := by
  induction l with
  | nil => cases hx
  | cons a as ih =>
    rcases List.mem_cons.mp hx with rfl | hmem
    · rw [List.filter_cons, hpx]
      exact Nat.lt_succ_of_le (List.length_filter_le p as)
    · rw [List.filter_cons]
      cases hpa : p a
      · exact Nat.lt_succ_of_lt (ih hmem)
      · simpa using Nat.succ_lt_succ (ih hmem)

theorem chatMsgs_delIds (msgs : List MsgDoc) (ids : List Nat) (cid : Nat) :
    chatMsgs (delIds msgs ids) cid =
      (chatMsgs msgs cid).filter (fun m => !(List.elem m.id ids)) := by
  unfold chatMsgs delIds
  rw [List.filter_filter, List.filter_filter]
  exact List.filter_congr (fun m _ => Bool.and_comm _ _)

theorem chatMsgs_nil_mono {m1 m2 : List MsgDoc} (c : Nat)
    (hsub : ∀ x ∈ m2, x ∈ m1) (h : chatMsgs m1 c = []) : chatMsgs m2 c = [] := by
  simp only [chatMsgs, List.filter_eq_nil_iff] at h ⊢
  exact fun a ha => h a (hsub a ha)

theorem afterPage_lt (cid : Nat) (msgs : List MsgDoc) (h : pageOf msgs cid ≠ []) :
    (chatMsgs (afterPage msgs cid) cid).length < (chatMsgs msgs cid).length := by
  rw [afterPage, chatMsgs_delIds]
  obtain ⟨x, hxpage⟩ := List.exists_mem_of_ne_nil _ h
  refine filter_length_lt _ _ x (List.take_subset 200 _ hxpage) ?_
  have hxid : x.id ∈ pageIds msgs cid := List.mem_map_of_mem MsgDoc.id hxpage
  simpa using hxid

theorem drainLoopF_ops (cid : Nat) : ∀ (fuel : Nat) (msgs : List MsgDoc),
    ∀ op ∈ (drainLoopF cid fuel msgs).1, op.isMsgDel = true := by
  intro fuel
  induction fuel with
  | zero => intro msgs op hop; cases hop
  | succ f ih =>
    intro msgs op hop
    rw [drainLoopF] at hop
    split at hop
    · cases hop
    · split at hop
      · rcases List.mem_singleton.mp hop with rfl; rfl
      · rcases hrec : drainLoopF cid f (afterPage msgs cid) with ⟨ops', rest'⟩
        rw [hrec] at hop
        rcases List.mem_cons.mp hop with rfl | hmem
        · rfl
        · have := ih (afterPage msgs cid) op
          rw [hrec] at this
          exact this hmem

theorem run_drainLoopF (cid : Nat) : ∀ (fuel : Nat) (msgs : List MsgDoc) (chs : List Nat),
    run ⟨msgs, chs⟩ (drainLoopF cid fuel msgs).1 = ⟨(drainLoopF cid fuel msgs).2, chs⟩ := by
  intro fuel
  induction fuel with
  | zero => intro msgs chs; rfl
  | succ f ih =>
    intro msgs chs
    rw [drainLoopF]
    split
    · rfl
    · split
      · rfl
      · rcases hrec : drainLoopF cid f (afterPage msgs cid) with ⟨ops', rest'⟩
        have := ih (afterPage msgs cid) chs
        rw [hrec] at this
        simpa [run] using this

theorem drainLoopF_sub (cid : Nat) : ∀ (fuel : Nat) (msgs : List MsgDoc),
    ∀ x ∈ (drainLoopF cid fuel msgs).2, x ∈ msgs := by
  intro fuel
  induction fuel with
  | zero => intro msgs x hx; exact hx
  | succ f ih =>
    intro msgs x hx
    rw [drainLoopF] at hx
    split at hx
    · exact hx
    · split at hx
      · exact List.mem_of_mem_filter hx
      · rcases hrec : drainLoopF cid f (afterPage msgs cid) with ⟨ops', rest'⟩
        rw [hrec] at hx
        have := ih (afterPage msgs cid) x
        rw [hrec] at this
        exact List.mem_of_mem_filter (this hx)

theorem drainLoopF_drained (cid : Nat) : ∀ (fuel : Nat) (msgs : List MsgDoc),
    (chatMsgs msgs cid).length < fuel → chatMsgs (drainLoopF cid fuel msgs).2 cid = [] := by
  intro fuel
  induction fuel with
  | zero => intro msgs h; cases h
  | succ f ih =>
    intro msgs h
    rw [drainLoopF]
    split
    · rename_i hempty
      rcases List.take_eq_nil_iff.mp hempty with h200 | hnil
      · cases h200
      · exact hnil
    · rename_i hne
      split
      · rename_i hshort
        have hlen : (chatMsgs msgs cid).length < 200 := by
          have := List.length_take 200 (chatMsgs msgs cid)
          rw [pageOf] at hshort
          omega
        have hall : pageOf msgs cid = chatMsgs msgs cid :=
          List.take_of_length_le (Nat.le_of_lt hlen)
        rw [afterPage, chatMsgs_delIds, List.filter_eq_nil_iff]
        intro a ha
        have haid : a.id ∈ pageIds msgs cid := by
          rw [pageIds, hall]
          exact List.mem_map_of_mem MsgDoc.id ha
        simpa using haid
      · rcases hrec : drainLoopF cid f (afterPage msgs cid) with ⟨ops', rest'⟩
        have hlt := afterPage_lt cid msgs hne
        have := ih (afterPage msgs cid) (by omega)
        rw [hrec] at this
        exact this

theorem drainLoop_drained (cid : Nat) (msgs : List MsgDoc) :
    chatMsgs (drainLoop cid msgs).2 cid = [] := by
  refine drainLoopF_drained cid (msgs.length + 1) msgs ?_
  exact Nat.lt_succ_of_le (List.length_filter_le _ _)

theorem drainAll_ops (cids : List Nat) : ∀ (msgs : List MsgDoc),
    ∀ op ∈ (drainAll cids msgs).1, op.isMsgDel = true := by
  induction cids with
  | nil => intro msgs op hop; cases hop
  | cons c rest ih =>
    intro msgs op hop
    rcases h1 : drainLoop c msgs with ⟨ops1, m1⟩
    rcases h2 : drainAll rest m1 with ⟨ops2, m2⟩
    simp only [drainAll, h1, h2] at hop
    rcases List.mem_append.mp hop with hmem | hmem
    · have := drainLoopF_ops c (msgs.length + 1) msgs op
      rw [show drainLoopF c (msgs.length + 1) msgs = (ops1, m1) from h1] at this
      exact this hmem
    · have := ih m1 op
      rw [h2] at this
      exact this hmem

theorem drainAll_sub (cids : List Nat) : ∀ (msgs : List MsgDoc),
    ∀ x ∈ (drainAll cids msgs).2, x ∈ msgs := by
  induction cids with
  | nil => intro msgs x hx; exact hx
  | cons c rest ih =>
    intro msgs x hx
    rcases h1 : drainLoop c msgs with ⟨ops1, m1⟩
    rcases h2 : drainAll rest m1 with ⟨ops2, m2⟩
    simp only [drainAll, h1, h2] at hx
    have hx2 : x ∈ m1 := by
      have := ih m1 x
      rw [h2] at this
      exact this hx
    have := drainLoopF_sub c (msgs.length + 1) msgs x
    rw [show drainLoopF c (msgs.length + 1) msgs = (ops1, m1) from h1] at this
    exact this hx2

theorem run_drainAll (cids : List Nat) : ∀ (msgs : List MsgDoc) (chs : List Nat),
    run ⟨msgs, chs⟩ (drainAll cids msgs).1 = ⟨(drainAll cids msgs).2, chs⟩ := by
  induction cids with
  | nil => intro msgs chs; rfl
  | cons c rest ih =>
    intro msgs chs
    rcases h1 : drainLoop c msgs with ⟨ops1, m1⟩
    rcases h2 : drainAll rest m1 with ⟨ops2, m2⟩
    simp only [drainAll, h1, h2]
    have hr1 : run ⟨msgs, chs⟩ ops1 = ⟨m1, chs⟩ := by
      have := run_drainLoopF c (msgs.length + 1) msgs chs
      rw [show drainLoopF c (msgs.length + 1) msgs = (ops1, m1) from h1] at this
      exact this
    have hr2 : run ⟨m1, chs⟩ ops2 = ⟨m2, chs⟩ := by
      have := ih m1 chs
      rw [h2] at this
      exact this
    simp only [run] at hr1 hr2 ⊢
    rw [List.foldl_append, hr1, hr2]

theorem drainAll_drained (cids : List Nat) : ∀ (msgs : List MsgDoc),
    ∀ c ∈ cids, chatMsgs (drainAll cids msgs).2 c = [] := by
  induction cids with
  | nil => intro msgs c hc; cases hc
  | cons c0 rest ih =>
    intro msgs c hc
    rcases h1 : drainLoop c0 msgs with ⟨ops1, m1⟩
    rcases h2 : drainAll rest m1 with ⟨ops2, m2⟩
    simp only [drainAll, h1, h2]
    rcases List.mem_cons.mp hc with rfl | hmem
    · have hd : chatMsgs m1 c = [] := by
        have := drainLoop_drained c msgs
        rw [h1] at this
        exact this
      refine chatMsgs_nil_mono c ?_ hd
      intro x hx
      have := drainAll_sub rest m1 x
      rw [h2] at this
      exact this hx
    · have := ih m1 c hmem
      rw [h2] at this
      exact this

theorem chunk500F_le (fuel : Nat) : ∀ (l : List Nat),
    ∀ batch ∈ chunk500F fuel l, batch.length ≤ 500 := by
  induction fuel with
  | zero => intro l batch h; cases h
  | succ f ih =>
    intro l batch h
    rw [chunk500F] at h
    split at h
    · cases h
    · rcases List.mem_cons.mp h with rfl | hmem
      · exact List.length_take_le 500 l
      · exact ih _ batch hmem

theorem chunk500F_flatten (fuel : Nat) : ∀ (l : List Nat), l.length ≤ fuel →
    (chunk500F fuel l).flatten = l := by
  induction fuel with
  | zero =>
    intro l h
    rw [List.length_eq_zero.mp (Nat.le_zero.mp h)]
    rfl
  | succ f ih =>
    intro l h
    rw [chunk500F]
    split
    · rename_i hnil; rw [hnil]; rfl
    · rename_i hne
      rw [List.flatten_cons, ih (l.drop 500) ?_, List.take_append_drop]
      have hpos : 0 < l.length := List.length_pos.mpr hne
      rw [List.length_drop]
      omega

theorem run_chats_of_msgDel (p : List Op) : ∀ (s : Store),
    (∀ op ∈ p, op.isMsgDel = true) → (run s p).chats = s.chats := by
  induction p with
  | nil => intro s _; rfl
  | cons op rest ih =>
    intro s hall
    have hop := hall op (List.mem_cons_self op rest)
    have hrest : ∀ o ∈ rest, o.isMsgDel = true := fun o ho => hall o (List.mem_cons_of_mem op ho)
    cases op with
    | commitMsgDelete c ids =>
      have : run s (Op.commitMsgDelete c ids :: rest) = run (applyOp s (.commitMsgDelete c ids)) rest := rfl
      rw [this, ih _ hrest]
      rfl
    | commitChatDelete cids => simp [Op.isMsgDel] at hop
    | deleteChat c => simp [Op.isMsgDel] at hop

theorem run_msgs_of_chatDel (p : List Op) : ∀ (s : Store),
    (∀ op ∈ p, op.isMsgDel = false) → (run s p).msgs = s.msgs := by
  induction p with
  | nil => intro s _; rfl
  | cons op rest ih =>
    intro s hall
    have hop := hall op (List.mem_cons_self op rest)
    have hrest : ∀ o ∈ rest, o.isMsgDel = false := fun o ho => hall o (List.mem_cons_of_mem op ho)
    cases op with
    | commitMsgDelete c ids => simp [Op.isMsgDel] at hop
    | commitChatDelete cids =>
      have : run s (Op.commitChatDelete cids :: rest) = run (applyOp s (.commitChatDelete cids)) rest := rfl
      rw [this, ih _ hrest]
      rfl
    | deleteChat c =>
      have : run s (Op.deleteChat c :: rest) = run (applyOp s (.deleteChat c)) rest := rfl
      rw [this, ih _ hrest]
      rfl

theorem run_append_ops (s : Store) (a b : List Op) : run s (a ++ b) = run (run s a) b := by
  simp [run, List.foldl_append]

theorem insertCmp_pinned_head (x : Chat) (hx : x.pinned = true) (l : List Chat) :
    insertCmp x l = x :: l := by
  cases l with
  | nil => rfl
  | cons y ys =>
    rw [insertCmp, if_pos]
    rw [cmpChats, hx]
    cases hy : y.pinned <;> simp

theorem insertCmp_past_pinned (x : Chat) (hx : x.pinned = false) :
    ∀ (as bs : List Chat), (∀ y ∈ as, y.pinned = true) →
      insertCmp x (as ++ bs) = as ++ insertCmp x bs := by
  intro as
  induction as with
  | nil => intro bs _; rfl
  | cons y ys ih =>
    intro bs hall
    have hy : y.pinned = true := hall y (List.mem_cons_self y ys)
    rw [List.cons_append, insertCmp, if_neg, ih bs (fun z hz => hall z (List.mem_cons_of_mem y hz)),
      List.cons_append]
    rw [cmpChats, hx, hy]
    simp

theorem insertCmp_unpinned_all (x : Chat) (hx : x.pinned = false) (bs : List Chat)
    (hbs : ∀ y ∈ bs, y.pinned = false) : insertCmp x bs = x :: bs := by
  cases bs with
  | nil => rfl
  | cons y ys =>
    have hy : y.pinned = false := hbs y (List.mem_cons_self y ys)
    rw [insertCmp, if_pos]
    rw [cmpChats, hx, hy]
    simp

theorem sortStable_partition (l : List Chat) :
    sortStable l = l.filter (fun c => c.pinned) ++ l.filter (fun c => !c.pinned) := by
  induction l with
  | nil => rfl
  | cons x xs ih =>
    have hstep : sortStable (x :: xs) = insertCmp x (sortStable xs) := rfl
    rw [hstep, ih]
    cases hx : x.pinned
    · rw [insertCmp_past_pinned x hx _ _ (fun y hy => (List.mem_filter.mp hy).2)]
      rw [insertCmp_unpinned_all x hx _
        (fun y hy => by simpa using (List.mem_filter.mp hy).2)]
      simp [List.filter_cons, hx]
    · rw [insertCmp_pinned_head x hx]
      simp [List.filter_cons, hx]

/-! ## Claims -/

/-- Claim C1 (code_bug evaluation): the spec and the in-code comments say a
4xx response is terminal and never retried (exactly 1 call), but the
client-error throw sits inside the `try`, so the `catch` retries it.
Given a persistent 404 the client performs 3 fetch calls, waits 1000 ms
and 2000 ms between them, and only then surfaces the client error. -/
theorem backoff_client_404_is_retried_three_times :
    fetchWithRetries (fun _ => .resp 404) 3 =
      ⟨.err (.clientError 404), 3, [1000, 2000]⟩ := by decide

theorem attemptError_transient (x : FetchOutcome) (h : isTransient x = true) :
    attemptError x = some (transientError x) := by
  cases x with
  | netErr => rfl
  | resp s =>
    have hs : 500 ≤ s := by simpa [isTransient] using h
    have hok : respOk s = false := by simp [respOk]; omega
    simp [attemptError, transientError, hok]
    omega

/-- Claim C3: when every attempt fails transiently (status ≥ 500 or a
network failure), the Backoff HTTP Client performs exactly 3 call
attempts, waiting 1 second before the second attempt and 2 seconds before
the third, and surfaces the last attempt error unwrapped. -/
theorem backoff_transient_three_attempts (responses : Nat → FetchOutcome)
    (h : ∀ i, i < 3 → isTransient (responses i) = true) :
    fetchWithRetries responses 3 =
      ⟨.err (transientError (responses 2)), 3, [1000, 2000]⟩ := by
  have e0 := attemptError_transient (responses 0) (h 0 (by omega))
  have e1 := attemptError_transient (responses 1) (h 1 (by omega))
  have e2 := attemptError_transient (responses 2) (h 2 (by omega))
  show fetchGo responses 0 3 = _
  have h3 : (3 : Nat) = 2 + 1 := rfl
  have h2' : (2 : Nat) = 1 + 1 := rfl
  have h1' : (1 : Nat) = 0 + 1 := rfl
  rw [h3, fetchGo, e0, h2', fetchGo, e1, h1', fetchGo, e2]
  simp

theorem backoff_transient_three_attempts_witness :
    (∀ i, i < 3 → isTransient ((fun _ => FetchOutcome.resp 500) i) = true) ∧
    fetchWithRetries (fun _ => FetchOutcome.resp 500) 3 =
      ⟨.err (transientError ((fun _ => FetchOutcome.resp 500) 2)), 3, [1000, 2000]⟩ :=
  ⟨by decide, backoff_transient_three_attempts (fun _ => FetchOutcome.resp 500) (by decide)⟩

/-- Claim C5: deleting a conversation holding exactly 450 turns with page
size 200 issues exactly 3 page-delete queries, deleting 200, 200 and 50
turns (the loop stops because the last page deleted fewer than 200), all
page deletions are message deletions, the conversation record is deleted
only after every page, and the log is fully drained. -/
theorem delete_chat_450_turns_three_pages :
    ((drainLoop 0 msgs450).1.map opDeletedCount = [200, 200, 50])
  ∧ (drainLoop 0 msgs450).1.length = 3
  ∧ (∀ op ∈ (drainLoop 0 msgs450).1, op.isMsgDel = true)
  ∧ handleDeleteChat 0 msgs450 = (drainLoop 0 msgs450).1 ++ [Op.deleteChat 0]
  ∧ chatMsgs (drainLoop 0 msgs450).2 0 = [] := by
  have hmap : (drainLoop 0 msgs450).1.map opDeletedCount = [200, 200, 50] := by
    set_option maxRecDepth 100000 in decide
  refine ⟨hmap, ?_, ?_, rfl, drainLoop_drained 0 msgs450⟩
  · have := congrArg List.length hmap
    simpa using this
  · exact drainLoopF_ops 0 (msgs450.length + 1) msgs450

/-- Claim C2: the bulk clear-all operation over a snapshot of conversation
ids first drains every message log of every snapshotted id to exhaustion
(all its operations are message deletions), only then deletes the
conversation records in batches of at most 500 per atomic write covering
exactly the snapshot, and at every prefix of the operation sequence a
conversation record that has been deleted has no remaining turns. -/
theorem clear_all_drains_logs_before_record_delete (cids : List Nat) (s : Store) :
    (clearAllOps cids s.msgs =
       (drainAll cids s.msgs).1 ++ (chunk500 cids).map Op.commitChatDelete)
  ∧ (∀ op ∈ (drainAll cids s.msgs).1, op.isMsgDel = true)
  ∧ (∀ batch ∈ chunk500 cids, batch.length ≤ 500)
  ∧ ((chunk500 cids).flatten = cids)
  ∧ (∀ c ∈ cids, chatMsgs (run s (drainAll cids s.msgs).1).msgs c = [])
  ∧ (∀ p q, clearAllOps cids s.msgs = p ++ q →
       ∀ c ∈ cids, c ∈ s.chats → c ∉ (run s p).chats →
         chatMsgs (run s p).msgs c = []) := by
  have hrunAll : run s (drainAll cids s.msgs).1 = ⟨(drainAll cids s.msgs).2, s.chats⟩ :=
    run_drainAll cids s.msgs s.chats
  refine ⟨rfl, drainAll_ops cids s.msgs, chunk500F_le cids.length cids,
    chunk500F_flatten cids.length cids (Nat.le_refl _), ?_, ?_⟩
  · intro c hc
    rw [hrunAll]
    exact drainAll_drained cids s.msgs c hc
  · intro p q hpq c hc hcs hdel
    have hsplit : (drainAll cids s.msgs).1 ++ (chunk500 cids).map Op.commitChatDelete = p ++ q := hpq
    rcases List.append_eq_append_iff.mp hsplit with ⟨a2, hp, hq⟩ | ⟨c2, hd, hq⟩
    · -- p spans the whole drain phase plus a piece a2 of the record-delete phase
      rw [hp, run_append_ops, hrunAll]
      have ha2 : ∀ op ∈ a2, op.isMsgDel = false := by
        intro op hop
        have : op ∈ (chunk500 cids).map Op.commitChatDelete := by
          rw [hq]; exact List.mem_append_left q hop
        rcases List.mem_map.mp this with ⟨batch, _, rfl⟩
        rfl
      have hmsgs := run_msgs_of_chatDel a2 ⟨(drainAll cids s.msgs).2, s.chats⟩ ha2
      have : chatMsgs (run ⟨(drainAll cids s.msgs).2, s.chats⟩ a2).msgs c = [] := by
        rw [hmsgs]
        exact drainAll_drained cids s.msgs c hc
      exact this
    · -- p is an initial segment of the drain phase: no chat record deleted yet
      exfalso
      have hpops : ∀ op ∈ p, op.isMsgDel = true := by
        intro op hop
        have : op ∈ (drainAll cids s.msgs).1 := by
          rw [hd]; exact List.mem_append_left c2 hop
        exact drainAll_ops cids s.msgs op this
      have := run_chats_of_msgDel p s hpops
      rw [this] at hdel
      exact hdel hcs

theorem clear_all_drains_logs_before_record_delete_witness :
    (clearAllOps [1, 2] (Store.mk [⟨10, 1⟩, ⟨11, 2⟩, ⟨12, 1⟩] [1, 2]).msgs =
       clearAllOps [1, 2] [⟨10, 1⟩, ⟨11, 2⟩, ⟨12, 1⟩] ++ []) ∧
    (1 ∈ [1, 2]) ∧ (1 ∈ (Store.mk [⟨10, 1⟩, ⟨11, 2⟩, ⟨12, 1⟩] [1, 2]).chats) ∧
    (1 ∉ (run (Store.mk [⟨10, 1⟩, ⟨11, 2⟩, ⟨12, 1⟩] [1, 2])
        (clearAllOps [1, 2] [⟨10, 1⟩, ⟨11, 2⟩, ⟨12, 1⟩])).chats) ∧
    chatMsgs (run (Store.mk [⟨10, 1⟩, ⟨11, 2⟩, ⟨12, 1⟩] [1, 2])
        (clearAllOps [1, 2] [⟨10, 1⟩, ⟨11, 2⟩, ⟨12, 1⟩])).msgs 1 = [] :=
  ⟨by simp, by decide, by decide, by decide,
    (clear_all_drains_logs_before_record_delete [1, 2]
        (Store.mk [⟨10, 1⟩, ⟨11, 2⟩, ⟨12, 1⟩] [1, 2])).2.2.2.2.2
      (clearAllOps [1, 2] [⟨10, 1⟩, ⟨11, 2⟩, ⟨12, 1⟩]) [] (by simp) 1 (by decide) (by decide)
      (by decide)⟩

/-- Claim C7: if the user-turn write fails, the engine aborts the
submission and returns to Idle with the state unchanged, persisting no
error turn and never invoking the completion backend. -/
theorem user_write_failure_aborts_silently (name : String) (st : EngineState) (input : String)
    (img : Option String) (mOk : Bool) (api : Except String (Option String))
    (aiW aiM : Option String) (eW eM : Bool)
    (h : ¬(jsTrim input = "" ∧ img = none)) :
    handleSendMessage name st input img false mOk api aiW aiM eW eM =
      ⟨st, false, none, false⟩ := by
  rw [handleSendMessage.eq_def, if_neg h]
  rfl

theorem user_write_failure_aborts_silently_witness :
    (¬(jsTrim "hello" = "" ∧ (none : Option String) = none)) ∧
    handleSendMessage "A" ⟨[], ⟨"New Chat", "", ""⟩⟩ "hello" none false true
        (Except.ok (some "hi")) none none true true =
      ⟨⟨[], ⟨"New Chat", "", ""⟩⟩, false, none, false⟩ :=
  ⟨by decide, user_write_failure_aborts_silently "A" ⟨[], ⟨"New Chat", "", ""⟩⟩ "hello" none true
      (Except.ok (some "hi")) none none true true (by decide)⟩

/-- Claim C6: an unrecoverable completion error makes the engine append a
persisted assistant turn flagged as an error whose text embeds the failure
cause, set the conversation preview to the fixed "Error occurred" marker
with last-sender assistant, and return to Idle (isLoading false); and if
even the error-turn write fails, that failure is swallowed: the engine
still returns a state (no crash) and goes back to Idle. -/
theorem completion_error_appends_flagged_turn (name : String) (st : EngineState)
    (input : String) (img : Option String) (em : String) (aiW aiM : Option String)
    (h : ¬(jsTrim input = "" ∧ img = none)) :
    (handleSendMessage name st input img true true (.error em) aiW aiM true true =
      ⟨⟨(st.persisted ++ [mkUserTurn (jsTrim input) img]) ++ [mkErrorTurn em],
        { updateTitleAndPreview (liveView name st.persisted) (jsTrim input) st.meta with
          lastMessage := "Error occurred", lastSender := "ai" }⟩,
       true, some (buildPayload name st.persisted (jsTrim input) img), false⟩)
  ∧ (mkErrorTurn em).isError = true
  ∧ (mkErrorTurn em).sender = "ai"
  ∧ (mkErrorTurn em).text =
      "I encountered an error: " ++ em ++ ". Please try again or check your connection."
  ∧ (∀ eM : Bool, handleSendMessage name st input img true true (.error em) aiW aiM false eM =
      ⟨⟨st.persisted ++ [mkUserTurn (jsTrim input) img],
        updateTitleAndPreview (liveView name st.persisted) (jsTrim input) st.meta⟩,
       true, some (buildPayload name st.persisted (jsTrim input) img), false⟩) := by
  refine ⟨?_, rfl, rfl, rfl, ?_⟩
  · rw [handleSendMessage.eq_def, if_neg h]
    rfl
  · intro eM
    rw [handleSendMessage.eq_def, if_neg h]
    rfl

theorem completion_error_appends_flagged_turn_witness :
    (¬(jsTrim "hi" = "" ∧ (none : Option String) = none)) ∧
    (handleSendMessage "A" ⟨[], ⟨"New Chat", "", ""⟩⟩ "hi" none true true
        (.error "Server Error: 500") none none true true =
      ⟨⟨([] ++ [mkUserTurn (jsTrim "hi") none]) ++ [mkErrorTurn "Server Error: 500"],
        { updateTitleAndPreview (liveView "A" []) (jsTrim "hi") ⟨"New Chat", "", ""⟩ with
          lastMessage := "Error occurred", lastSender := "ai" }⟩,
       true, some (buildPayload "A" [] (jsTrim "hi") none), false⟩) :=
  ⟨by decide,
    (completion_error_appends_flagged_turn "A" ⟨[], ⟨"New Chat", "", ""⟩⟩ "hi" none
        "Server Error: 500" none none (by decide)).1⟩

/-- Claim C4: on a fresh conversation (empty persisted log) the first send
sets the title to the derived title of the trimmed input; a second send on
the resulting state leaves the already-set title unchanged; and the
derivation is: first 40 characters plus an ellipsis when longer than 40,
the text itself otherwise, and the fixed placeholder "Image chat" when the
turn carries no text (image-only send). -/
theorem title_set_once (name : String) (meta0 : ChatMeta) (input1 input2 : String)
    (img1 img2 : Option String) (t1 t2 : Option String) (eW1 eM1 eW2 eM2 : Bool)
    (h1 : ¬(jsTrim input1 = "" ∧ img1 = none)) (h2 : ¬(jsTrim input2 = "" ∧ img2 = none)) :
    ((handleSendMessage name ⟨[], meta0⟩ input1 img1 true true (.ok t1) none none eW1 eM1).state.meta.title
        = deriveTitle (jsTrim input1))
  ∧ ((handleSendMessage name
        (handleSendMessage name ⟨[], meta0⟩ input1 img1 true true (.ok t1) none none eW1 eM1).state
        input2 img2 true true (.ok t2) none none eW2 eM2).state.meta.title
      = (handleSendMessage name ⟨[], meta0⟩ input1 img1 true true (.ok t1) none none eW1 eM1).state.meta.title)
  ∧ (∀ t : String, 40 < t.length → deriveTitle t = t.take 40 ++ "...")
  ∧ (∀ t : String, t ≠ "" → t.length ≤ 40 → deriveTitle t = t)
  ∧ deriveTitle "" = "Image chat" := by
  have e1 : (handleSendMessage name ⟨[], meta0⟩ input1 img1 true true (.ok t1) none none eW1 eM1).state =
      ⟨[mkUserTurn (jsTrim input1) img1,
        mkAiTurn (parseDirective (extractText t1)).1 (parseDirective (extractText t1)).2],
       { updateTitleAndPreview (liveView name []) (jsTrim input1) meta0 with
         lastMessage := previewOf (parseDirective (extractText t1)), lastSender := "ai" }⟩ := by
    rw [handleSendMessage.eq_def, if_neg h1]
    rfl
  have htitle1 : (handleSendMessage name ⟨[], meta0⟩ input1 img1 true true (.ok t1) none none eW1 eM1).state.meta.title
      = deriveTitle (jsTrim input1) := by
    rw [e1]
    rfl
  refine ⟨htitle1, ?_, ?_, ?_, rfl⟩
  · rw [e1, handleSendMessage.eq_def, if_neg h2]
    rfl
  · intro t ht
    rw [deriveTitle, if_pos ht]
  · intro t hne hle
    rw [deriveTitle, if_neg (by omega), if_neg hne]

theorem title_set_once_witness :
    (¬(jsTrim "hello" = "" ∧ (none : Option String) = none)) ∧
    (¬(jsTrim "again" = "" ∧ (none : Option String) = none)) ∧
    ((handleSendMessage "A" ⟨[], ⟨"New Chat", "", ""⟩⟩ "hello" none true true (.ok (some "hi"))
          none none true true).state.meta.title = deriveTitle (jsTrim "hello")) ∧
    ((handleSendMessage "A"
        (handleSendMessage "A" ⟨[], ⟨"New Chat", "", ""⟩⟩ "hello" none true true (.ok (some "hi"))
          none none true true).state
        "again" none true true (.ok (some "yo")) none none true true).state.meta.title
      = (handleSendMessage "A" ⟨[], ⟨"New Chat", "", ""⟩⟩ "hello" none true true (.ok (some "hi"))
          none none true true).state.meta.title) :=
  ⟨by decide, by decide,
    (title_set_once "A" ⟨"New Chat", "", ""⟩ "hello" "again" none none (some "hi") (some "yo")
        true true true true (by decide) (by decide)).1,
    (title_set_once "A" ⟨"New Chat", "", ""⟩ "hello" "again" none none (some "hi") (some "yo")
        true true true true (by decide) (by decide)).2.1⟩

/-- Claim C10: on the text path of a conversation whose persisted log is
empty, the request history sent to the completion backend is built from
the live view, which substitutes the client-synthesized welcome turn; the
welcome turn is not excluded by the image filter and is mapped to the
"model" role, so the outbound contents are exactly the welcome turn
(role "model") followed by the new user text (role "user"). -/
theorem welcome_turn_included_in_history (name input : String) (meta0 : ChatMeta)
    (api : Except String (Option String)) (aiW aiM : Option String) (eW eM : Bool)
    (h : jsTrim input ≠ "") :
    ((handleSendMessage name ⟨[], meta0⟩ input none true true api aiW aiM eW eM).payload =
      some (buildPayload name [] (jsTrim input) none))
  ∧ (buildPayload name [] (jsTrim input) none =
      Payload.text [⟨"model", (welcomeTurn name).text⟩, ⟨"user", jsTrim input⟩]) := by
  have hcond : ¬(jsTrim input = "" ∧ (none : Option String) = none) := fun hx => h hx.1
  constructor
  · rw [handleSendMessage.eq_def, if_neg hcond]
    rcases api with e | cand
    · rfl
    · rcases aiW with _ | em
      · rcases aiM with _ | em2 <;> rfl
      · rfl
  · rw [buildPayload]
    rfl

theorem welcome_turn_included_in_history_witness :
    (jsTrim "hello" ≠ "") ∧
    ((handleSendMessage "Bob" ⟨[], ⟨"New Chat", "", ""⟩⟩ "hello" none true true
        (.ok (some "hi")) none none true true).payload =
      some (buildPayload "Bob" [] (jsTrim "hello") none)) ∧
    (buildPayload "Bob" [] (jsTrim "hello") none =
      Payload.text [⟨"model", (welcomeTurn "Bob").text⟩, ⟨"user", jsTrim "hello"⟩]) :=
  ⟨by decide,
    (welcome_turn_included_in_history "Bob" "hello" ⟨"New Chat", "", ""⟩ (.ok (some "hi"))
        none none true true (by decide)).1,
    (welcome_turn_included_in_history "Bob" "hello" ⟨"New Chat", "", ""⟩ (.ok (some "hi"))
        none none true true (by decide)).2⟩

/-- Claim C9: the derived registry view filters by case-insensitive
substring match on the title and by category (or "all"), and its sort
places every pinned conversation before every unpinned one while
preserving the incoming order among equally-pinned items: the sorted view
is exactly the pinned part of the filtered list, in order, followed by the
unpinned part, in order. -/
theorem registry_view_filter_and_pinned_sort (chats : List Chat) (q cat : String) :
    (∀ c, c ∈ filteredChats chats q cat ↔
        c ∈ chats ∧ matchesSearch c q = true ∧ (cat = "all" ∨ c.category = cat))
  ∧ (∀ c, matchesSearch c q = listHas (lowerStr q).data (lowerStr c.title).data)
  ∧ sortedChats chats q cat =
      (filteredChats chats q cat).filter (fun c => c.pinned) ++
        (filteredChats chats q cat).filter (fun c => !c.pinned) := by
  refine ⟨?_, fun c => rfl, sortStable_partition _⟩
  intro c
  simp [filteredChats, List.mem_filter, Bool.and_eq_true, Bool.or_eq_true,
    decide_eq_true_iff, and_assoc]

/-- Claim C8: the Directive Parser honors only the first
IMAGE_REQUEST occurrence, percent-encodes the trimmed description into the
fixed Pollinations URL template, strips the directive from the text,
synthesizes the default caption when the remaining text is empty, returns
a directive-free text unchanged with no URL, and on the concrete example
yields cleaned text "Sure!" and a URL containing the percent-encoded
description. -/
theorem directive_parse_spec :
    (parseDirective "Sure! [IMAGE_REQUEST: a red fox in snow]" =
      ("Sure!", some "https://image.pollinations.ai/prompt/a%20red%20fox%20in%20snow?width=512&height=512&nologo=true"))
  ∧ (listHas "a%20red%20fox%20in%20snow".data
      "https://image.pollinations.ai/prompt/a%20red%20fox%20in%20snow?width=512&height=512&nologo=true".data = true)
  ∧ (∀ s : String, findDirective s.data = none → parseDirective s = (s, none))
  ∧ (parseDirective "[IMAGE_REQUEST: cat] and [IMAGE_REQUEST: dog]" =
      ("and [IMAGE_REQUEST: dog]", some (generateImageURL "cat")))
  ∧ (∀ s p g suf, findDirective s.data = some (p, g, suf) →
      parseDirective s =
        (if String.mk (trimList (p ++ suf)) = ""
         then "Here\x27s the image you requested: \"" ++ String.mk (trimList g) ++ "\""
         else String.mk (trimList (p ++ suf)),
         some (generateImageURL (String.mk (trimList g))))) := by
  refine ⟨by decide, by decide, ?_, by decide, ?_⟩
  · intro s hs
    rw [parseDirective, hs]
  · intro s p g suf hs
    rw [parseDirective, hs]

theorem directive_parse_spec_witness :
    (findDirective "no directive here".data = none) ∧
    parseDirective "no directive here" = ("no directive here", none) :=
  ⟨by decide, directive_parse_spec.2.2.1 "no directive here" (by decide)⟩

end Spec2Proof
